import Mathlib

/-!
Shallow embedding of the pseudo-positioner transform engine from
`pcdsdevices/pseudopos.py`: the synchronized-axes engine (`SyncAxesBase`),
the optical-delay transform (`DelayBase`), and the lookup-table positioner
(`LookupTablePositioner`), together with the notepad telemetry push of the
PCDS `PseudoPositioner` subclass.  Machine floats are modelled as exact
rationals; numpy's `interp` is embedded by its documented piecewise-linear,
edge-clamping semantics.
-/

namespace Pcds

/-! ## numpy.interp embedding

`np.interp(x, xp, fp)` with increasing `xp`: piecewise-linear interpolation,
returning `fp[0]` for `x` at or below `xp[0]` and `fp[-1]` for `x` beyond
`xp[-1]` (edge clamping, no extrapolation).  The sample points are carried as
a list of `(xp, fp)` pairs. -/

/-- One linear segment between `(x0, y0)` and `(x1, y1)`, evaluated at `x`. -/
def interpSegment (x x0 y0 x1 y1 : ℚ) : ℚ :=
  y0 + (y1 - y0) * (x - x0) / (x1 - x0)

/-- Walk the remaining sample points; `last` is the most recent point at or
below `x`.  Falling off the end clamps to the last `fp` value. -/
def npInterpAux (x : ℚ) : List (ℚ × ℚ) → ℚ × ℚ → ℚ
  | [], last => last.2
  | (x1, y1) :: rest, last =>
      if x ≤ x1 then interpSegment x last.1 last.2 x1 y1
      else npInterpAux x rest (x1, y1)

/-- `np.interp` over an increasing series of `(xp, fp)` pairs. -/
def npInterp (x : ℚ) (pts : List (ℚ × ℚ)) : ℚ :=
  match pts with
  | [] => 0
  | (x0, y0) :: rest =>
      if x ≤ x0 then y0
      else npInterpAux x rest (x0, y0)

/-! ## LookupTablePositioner -/

/-- A numpy ndarray: an explicit shape plus row-major flat data. -/
structure NpArray where
  shape : List ℕ
  flat : List ℚ
deriving DecidableEq

/-- `table[:, j]` for a 2-D table of shape `[r, c]` (empty otherwise). -/
def tableColumn (t : NpArray) (j : ℕ) : List ℚ :=
  match t.shape with
  | [r, c] => (List.range r).map (fun i => t.flat.getD (i * c + j) 0)
  | _ => []

/-- `self._table_data_by_name[attr]`: the column whose index is the position
of `attr` in `column_names`. -/
def tableDataByName (t : NpArray) (column_names : List String)
    (attr : String) : List ℚ :=
  tableColumn t (column_names.indexOf attr)

/-- `LookupTablePositioner.forward`: interpolate the pseudo value against the
pseudo column (x) and real column (y) via `np.interp`. -/
def lut_forward (t : NpArray) (column_names : List String)
    (pseudo_field real_field : String) (x : ℚ) : ℚ :=
  npInterp x
    ((tableDataByName t column_names pseudo_field).zip
      (tableDataByName t column_names real_field))

/-- `LookupTablePositioner.inverse`: interpolate the real value against the
real column (x) and pseudo column (y) via `np.interp`. -/
def lut_inverse (t : NpArray) (column_names : List String)
    (pseudo_field real_field : String) (x : ℚ) : ℚ :=
  npInterp x
    ((tableDataByName t column_names real_field).zip
      (tableDataByName t column_names pseudo_field))

/-- The spec's example table: rows of `(pseudo, real)` samples with
pseudo column `[0, 10, 20, 30]` and real column `[0, 1, 2, 3]`. -/
def exampleTable : NpArray :=
  { shape := [4, 2], flat := [0, 0, 10, 1, 20, 2, 30, 3] }

/-- Column names for `exampleTable`: pseudo axis `"pseudo"` in column 0,
real axis `"real"` in column 1. -/
def exampleColumns : List String := ["pseudo", "real"]

/-- C1: on the table with real column `[0,1,2,3]` and pseudo column
`[0,10,20,30]`, `forward(15) = 1.5`, `inverse(2.5) = 25`, and out-of-range
pseudo inputs clamp to the table edges: `forward(-5) = 0`,
`forward(35) = 3`. -/
theorem lookup_table_example_values :
    lut_forward exampleTable exampleColumns "pseudo" "real" 15 = 3 / 2 ∧
    lut_inverse exampleTable exampleColumns "pseudo" "real" (5 / 2) = 25 ∧
    lut_forward exampleTable exampleColumns "pseudo" "real" (-5) = 0 ∧
    lut_forward exampleTable exampleColumns "pseudo" "real" 35 = 3 := by
  refine ⟨?_, ?_, ?_, ?_⟩ <;>
    norm_num [lut_forward, lut_inverse, tableDataByName, tableColumn,
      exampleTable, exampleColumns, npInterp, npInterpAux, interpSegment,
      List.indexOf, List.findIdx, List.findIdx.go, List.range, List.range.loop,
      show (("pseudo" == "real") = false) from rfl,
      show (("real" == "real") = true) from rfl,
      show (("pseudo" == "pseudo") = true) from rfl]

/-! ## SyncAxesBase

The synchronized-axes engine.  A real position (`self.real_position`, an
ordered namedtuple of per-axis floats) is modelled as an ordered association
list `List (String × ℚ)`; the mutable state is the offset cache
`self._offsets` (a dict, empty at construction). -/

/-- The mutable state of a `SyncAxesBase` instance: the offset cache
`self._offsets`, set to `{}` by `__init__`. -/
structure SyncState where
  offsets : List (String × ℚ)
deriving DecidableEq

/-- `SyncAxesBase.calc_combined` (default implementation): the position of
the first axis, `real_position[0]`. -/
def calc_combined (real_position : List (String × ℚ)) : ℚ :=
  (real_position.headD ("", 0)).2

/-- `SyncAxesBase.save_offsets`, parameterized by the combining function:
reads the real position, computes `combo = f(pos)` and stores
`offset[fld] = pos[fld] - combo` for every real-axis field. -/
def save_offsets_with (f : List (String × ℚ) → ℚ)
    (pos : List (String × ℚ)) : List (String × ℚ) :=
  let combo := f pos
  pos.map (fun p => (p.1, p.2 - combo))

/-- `SyncAxesBase.save_offsets` with the class's default `calc_combined`. -/
def save_offsets (pos : List (String × ℚ)) : List (String × ℚ) :=
  save_offsets_with calc_combined pos

/-- `SyncAxesBase.forward`: if the offset cache is empty, first populate it
via `save_offsets` (which reads the current real position `realPos`); then
every real axis target is `pseudo + offset[axis]`.  Returns the
`RealPosition` together with the possibly-updated state. -/
def sync_forward (f : List (String × ℚ) → ℚ) (s : SyncState)
    (realPos : List (String × ℚ)) (pseudo : ℚ) :
    List (String × ℚ) × SyncState :=
  let offsets := if s.offsets = [] then save_offsets_with f realPos
                 else s.offsets
  (offsets.map (fun p => (p.1, pseudo + p.2)), { offsets := offsets })

/-- `SyncAxesBase.inverse`: the pseudo value is `calc_combined(real_pos)`,
always recomputed from the argument. -/
def sync_inverse (f : List (String × ℚ) → ℚ)
    (realPos : List (String × ℚ)) : ℚ :=
  f realPos

/-- C2: for any combining function `f` and any real position `P`, after
`save_offsets()` the cached offsets satisfy
`f(P) + offset[axis] = P[axis]` for every real axis (and the axis names are
preserved in order). -/
theorem save_offsets_spec (f : List (String × ℚ) → ℚ)
    (P : List (String × ℚ)) (i : ℕ) (hi : i < P.length) :
    ((save_offsets_with f P).getD i ("", 0)).1 = (P.getD i ("", 0)).1 ∧
    f P + ((save_offsets_with f P).getD i ("", 0)).2 = (P.getD i ("", 0)).2 := by
  have hlen : (save_offsets_with f P).length = P.length := by
    simp [save_offsets_with]
  have hget : (save_offsets_with f P).getD i ("", 0)
      = ((P.getD i ("", 0)).1, (P.getD i ("", 0)).2 - f P) := by
    simp [save_offsets_with, List.getD, List.getElem?_map,
      List.getElem?_eq_getElem hi]
  rw [hget]
  exact ⟨rfl, by ring⟩

/-- Witness for C2 at a concrete input. -/
theorem save_offsets_spec_witness :
    ((save_offsets_with calc_combined
        [("left", 5), ("right", 7)]).getD 1 ("", 0)).1
      = ([("left", (5 : ℚ)), ("right", 7)].getD 1 ("", 0)).1 ∧
    calc_combined [("left", 5), ("right", 7)] +
      ((save_offsets_with calc_combined
        [("left", 5), ("right", 7)]).getD 1 ("", 0)).2
      = ([("left", (5 : ℚ)), ("right", 7)].getD 1 ("", 0)).2 :=
  save_offsets_spec calc_combined [("left", 5), ("right", 7)] 1 (by decide)

/-- C3: with the default combining function and the offset cache populated by
`save_offsets` at real position `P` (unchanged between the calls), the
round trip `inverse(forward(x))` returns `x` for every pseudo value `x`. -/
theorem sync_round_trip (P : List (String × ℚ)) (x : ℚ) (hP : P ≠ []) :
    sync_inverse calc_combined
      (sync_forward calc_combined ⟨save_offsets P⟩ P x).1 = x := by
  obtain ⟨p, rest, rfl⟩ : ∃ p rest, P = p :: rest := by
    cases P with
    | nil => exact absurd rfl hP
    | cons p rest => exact ⟨p, rest, rfl⟩
  by_cases h0 : save_offsets (p :: rest) = []
  · simp [save_offsets, save_offsets_with] at h0
  · simp only [sync_forward, sync_inverse, if_neg h0]
    simp [save_offsets, save_offsets_with, calc_combined]

/-- Witness for C3 at a concrete input. -/
theorem sync_round_trip_witness :
    sync_inverse calc_combined
      (sync_forward calc_combined ⟨save_offsets [("left", 5), ("right", 7)]⟩
        [("left", 5), ("right", 7)] 3).1 = 3 :=
  sync_round_trip [("left", 5), ("right", 7)] 3 (by decide)

/-- C10 counterexample: `SyncAxesBase.forward` is not pure.  Called with an
empty offset cache it (a) mutates the positioner state — the cache goes from
`{}` to a non-empty dict — and (b) reads the real axes: with the same state
and same pseudo argument, two different current real positions yield
different results. -/
theorem sync_forward_not_pure :
    (sync_forward calc_combined ⟨[]⟩ [("a", 0), ("b", 10)] 1).2 ≠ ⟨[]⟩ ∧
    (sync_forward calc_combined ⟨[]⟩ [("a", 0), ("b", 10)] 1).1 ≠
      (sync_forward calc_combined ⟨[]⟩ [("a", 0), ("b", 20)] 1).1 := by
  constructor <;>
    simp [sync_forward, save_offsets_with, calc_combined]

/-- C10 amended: when the offset cache is non-empty, `forward` leaves the
positioner state (the offset cache) unchanged and reads nothing from the
real axes — its result is the same for any two current real positions — so
two calls with the same argument and prior state agree.  (`inverse` is a
pure function of its argument by construction.) -/
theorem sync_forward_pure_of_cached (f : List (String × ℚ) → ℚ)
    (s : SyncState) (P Q : List (String × ℚ)) (x : ℚ)
    (h : s.offsets ≠ []) :
    sync_forward f s P x = sync_forward f s Q x ∧
    (sync_forward f s P x).2 = s := by
  constructor <;> simp [sync_forward, if_neg h]

/-- Witness for the amended C10 at a concrete input. -/
theorem sync_forward_pure_of_cached_witness :
    sync_forward calc_combined ⟨[("a", 1)]⟩ [("a", 5)] 2 =
      sync_forward calc_combined ⟨[("a", 1)]⟩ [("a", 6)] 2 ∧
    (sync_forward calc_combined ⟨[("a", 1)]⟩ [("a", 5)] 2).2 =
      ⟨[("a", 1)]⟩ :=
  sync_forward_pure_of_cached calc_combined ⟨[("a", 1)]⟩ [("a", 5)]
    [("a", 6)] 2 (by decide)

/-! ## DelayBase -/

/-- The physical dimension of a unit of measure. -/
inductive Dimension where
  | time
  | length
deriving DecidableEq

/-- A unit of measure: its dimension and its scale factor to the base unit of
that dimension (seconds for time, meters for length); e.g. millimeters are
`⟨length, 1/1000⟩` and nanoseconds `⟨time, 1/10^9⟩`. -/
structure PhysUnit where
  dim : Dimension
  scale : ℚ
deriving DecidableEq

/-- The base time unit, seconds. -/
def secondsUnit : PhysUnit := ⟨Dimension.time, 1⟩

/-- The base length unit, meters. -/
def metersUnit : PhysUnit := ⟨Dimension.length, 1⟩

/-- Millimeters. -/
def millimetersUnit : PhysUnit := ⟨Dimension.length, 1 / 1000⟩

/-- Modelled from the spec: `convert_unit` from `pcdsdevices.utils` (the
module is not among the provided sources).  Stateless conversion between
compatible physical units — rescale by the ratio of the two units' scale
factors; conversion between incompatible dimensions is a usage error, not
silently coerced. -/
def convert_unit (value : ℚ) (fromU toU : PhysUnit) : Except String ℚ :=
  if fromU.dim = toU.dim then Except.ok (value * fromU.scale / toU.scale)
  else Except.error "incompatible dimensions"

/-- `scipy.constants.speed_of_light`, in meters per second. -/
def speed_of_light : ℚ := 299792458

/-- The construction-time configuration of a `DelayBase` instance: the
number of bounces, the delay (pseudo) axis unit `self.delay.egu`, and the
real motor's unit `self.motor.egu`. -/
structure DelayConfig where
  n_bounces : ℕ
  delay_egu : PhysUnit
  motor_egu : PhysUnit

/-- `DelayBase.forward`: delay value → seconds →
`meters = seconds * c / n_bounces` → motor units. -/
def delay_forward (d : DelayConfig) (delay : ℚ) : Except String ℚ := do
  let seconds ← convert_unit delay d.delay_egu secondsUnit
  let meters := seconds * speed_of_light / d.n_bounces
  convert_unit meters metersUnit d.motor_egu

/-- `DelayBase.inverse`: motor value → meters →
`seconds = meters / c * n_bounces` → delay units. -/
def delay_inverse (d : DelayConfig) (motor : ℚ) : Except String ℚ := do
  let meters ← convert_unit motor d.motor_egu metersUnit
  let seconds := meters / speed_of_light * d.n_bounces
  convert_unit seconds secondsUnit d.delay_egu

/-- C4: for every positive delay `d` and positive bounce count, with any
consistent units (a time unit on the delay axis, a length unit on the motor,
both with non-degenerate scale factors), `inverse(forward(d))` recovers `d`
exactly in the rational model. -/
theorem delay_round_trip (cfg : DelayConfig) (d : ℚ)
    (hd : 0 < d) (hn : 0 < cfg.n_bounces)
    (hdt : cfg.delay_egu.dim = Dimension.time)
    (hml : cfg.motor_egu.dim = Dimension.length)
    (hds : cfg.delay_egu.scale ≠ 0) (hms : cfg.motor_egu.scale ≠ 0) :
    (delay_forward cfg d).bind (delay_inverse cfg) = Except.ok d := by
  have hn' : (cfg.n_bounces : ℚ) ≠ 0 := Nat.cast_ne_zero.mpr hn.ne'
  have hc : speed_of_light ≠ 0 := by norm_num [speed_of_light]
  simp only [delay_forward, delay_inverse, convert_unit, secondsUnit,
    metersUnit, hdt, hml, if_pos, bind, Except.bind, Except.ok.injEq]
  field_simp
  ring

/-- Witness for C4 at a concrete input: 1 ns delay, 2 bounces, seconds on
the delay axis, millimeters on the motor. -/
theorem delay_round_trip_witness :
    (delay_forward ⟨2, secondsUnit, millimetersUnit⟩ (1 / 10 ^ 9)).bind
      (delay_inverse ⟨2, secondsUnit, millimetersUnit⟩) =
      Except.ok (1 / 10 ^ 9) :=
  delay_round_trip ⟨2, secondsUnit, millimetersUnit⟩ (1 / 10 ^ 9)
    (by norm_num) (by norm_num) rfl rfl (by norm_num [secondsUnit])
    (by norm_num [millimetersUnit])

/-- C5: with `n_bounces = 2`, delay axis in seconds and motor in
millimeters, a pseudo delay of 1 nanosecond maps to the real position
`(10⁻⁹ · 299792458 / 2) · 1000` mm (= 149.896229 mm exactly). -/
theorem delay_forward_one_ns :
    delay_forward ⟨2, secondsUnit, millimetersUnit⟩ (1 / 10 ^ 9) =
      Except.ok ((1 / 10 ^ 9) * 299792458 / 2 * 1000) := by
  simp only [delay_forward, convert_unit, secondsUnit, metersUnit,
    millimetersUnit, speed_of_light, bind, Except.bind]
  norm_num

/-! ## Abstract-base construction checks -/

/-- `SyncAxesBase.__init__`: raises `TypeError` when the class being
instantiated is `SyncAxesBase` itself; otherwise `super().__init__` runs
(the external ophyd machinery, assumed successful for a subclass that adds
the required axis components) and the offset cache is set to `{}`. -/
def syncAxesBase_init (cls : String) : Except String SyncState :=
  if cls = "SyncAxesBase" then
    Except.error
      "SyncAxesBase must be subclassed with the axes to synchronize included as components"
  else Except.ok { offsets := [] }

/-- The construction-time state stored by `DelayBase.__init__`. -/
structure DelayInitState where
  n_bounces : ℕ
  egu : String
deriving DecidableEq

/-- `DelayBase.__init__`: raises `TypeError` when the class being
instantiated is `DelayBase` itself; otherwise stores `n_bounces` and runs
`super().__init__` with the given `egu` (external machinery, assumed
successful for a subclass that adds the `motor` component). -/
def delayBase_init (cls : String) (egu : String) (n_bounces : ℕ) :
    Except String DelayInitState :=
  if cls = "DelayBase" then
    Except.error
      "DelayBase must be subclassed with a motor component, the real motor to move."
  else Except.ok { n_bounces := n_bounces, egu := egu }

/-- C8: instantiating `SyncAxesBase` or `DelayBase` directly fails with a
usage error, while any subclass (e.g. `SimDelayStage`, which adds the
`motor` component) constructs successfully. -/
theorem abstract_base_rejection :
    (∃ e, syncAxesBase_init "SyncAxesBase" = Except.error e) ∧
    (∃ e, delayBase_init "DelayBase" "s" 2 = Except.error e) ∧
    (∀ cls, cls ≠ "SyncAxesBase" →
      syncAxesBase_init cls = Except.ok ⟨[]⟩) ∧
    (∀ cls egu n, cls ≠ "DelayBase" →
      delayBase_init cls egu n = Except.ok ⟨n, egu⟩) ∧
    delayBase_init "SimDelayStage" "s" 2 = Except.ok ⟨2, "s"⟩ := by
  refine ⟨⟨_, rfl⟩, ⟨_, rfl⟩, ?_, ?_, rfl⟩
  · intro cls hcls
    simp [syncAxesBase_init, hcls]
  · intro cls egu n hcls
    simp [delayBase_init, hcls]

/-- Witness for C8 at a concrete subclass name. -/
theorem abstract_base_rejection_witness :
    syncAxesBase_init "Parallel" = Except.ok ⟨[]⟩ ∧
    delayBase_init "SimDelayStage" "s" 2 = Except.ok ⟨2, "s"⟩ :=
  ⟨abstract_base_rejection.2.2.1 "Parallel" (by decide),
    abstract_base_rejection.2.2.2.2⟩

/-! ## LookupTablePositioner construction validation -/

/-- The validation errors `LookupTablePositioner.__init__` can raise, in
structured form: `missingPositioners` carries the set of axis attribute
names absent from `column_names` (the Python message interpolates them:
`"Positioners {missing} not present in the table"`);
`wrongColumnCount` is `"Incorrect number of column names for the given
table."`; `badDimensions` carries the offending shape
(`"Unsupported table dimensions: {shape}"`). -/
inductive LookupError where
  | missingPositioners (missing : List String)
  | wrongColumnCount
  | badDimensions (shape : List ℕ)
deriving DecidableEq

/-- The validation prefix of `LookupTablePositioner.__init__`:
`axisAttrs` are the attribute names of `self._real + self._pseudo`.
First collect every axis attribute not in `column_names` and fail naming
them; then require the column-name count to equal `table.shape[-1]`; then
require the table to be 2-dimensional. -/
def lookup_validate (axisAttrs : List String) (table : NpArray)
    (column_names : List String) : Except LookupError Unit :=
  let missing := axisAttrs.filter (fun a => !column_names.contains a)
  if missing ≠ [] then Except.error (LookupError.missingPositioners missing)
  else if column_names.length ≠ table.shape.getLastD 0 then
    Except.error LookupError.wrongColumnCount
  else if table.shape.length ≠ 2 then
    Except.error (LookupError.badDimensions table.shape)
  else Except.ok ()

/-- C6: lookup-table construction succeeds exactly when every configured
real/pseudo axis attribute appears among the column names, the column-name
count equals the number of table columns, and the table is 2-dimensional;
and when an axis attribute is missing, the validation error names it. -/
theorem lookup_validation_spec (axisAttrs : List String) (table : NpArray)
    (cols : List String) :
    (lookup_validate axisAttrs table cols = Except.ok () ↔
      ((∀ a ∈ axisAttrs, a ∈ cols) ∧
        cols.length = table.shape.getLastD 0 ∧
        table.shape.length = 2)) ∧
    (∀ a ∈ axisAttrs, a ∉ cols →
      ∃ missing, lookup_validate axisAttrs table cols =
          Except.error (LookupError.missingPositioners missing) ∧
        a ∈ missing) := by
  constructor
  · constructor
    · intro hok
      by_cases h1 : axisAttrs.filter (fun a => !cols.contains a) = []
      · by_cases h2 : cols.length = table.shape.getLastD 0
        · by_cases h3 : table.shape.length = 2
          · refine ⟨fun a ha => ?_, h2, h3⟩
            by_contra hac
            have hm : a ∈ axisAttrs.filter (fun a => !cols.contains a) := by
              simp [List.mem_filter, ha, hac]
            rw [h1] at hm
            exact absurd hm (List.not_mem_nil a)
          · refine absurd hok ?_
            simp only [lookup_validate, if_neg (not_not.mpr h1),
              if_neg (not_not.mpr h2), if_pos h3]
            exact fun h => by cases h
        · refine absurd hok ?_
          simp only [lookup_validate, if_neg (not_not.mpr h1), if_pos h2]
          exact fun h => by cases h
      · refine absurd hok ?_
        simp only [lookup_validate, if_pos h1]
        exact fun h => by cases h
    · rintro ⟨hall, h2, h3⟩
      have h1 : axisAttrs.filter (fun a => !cols.contains a) = [] :=
        List.filter_eq_nil.mpr (fun a ha => by simpa using hall a ha)
      simp only [lookup_validate, if_neg (not_not.mpr h1),
        if_neg (not_not.mpr h2), if_neg (not_not.mpr h3)]
  · intro a ha hac
    have hmem : a ∈ axisAttrs.filter (fun a => !cols.contains a) := by
      simp [List.mem_filter, ha, hac]
    have hne : axisAttrs.filter (fun a => !cols.contains a) ≠ [] :=
      List.ne_nil_of_mem hmem
    refine ⟨_, ?_, hmem⟩
    simp only [lookup_validate, if_pos hne]

/-- Witness for C6: a table whose column names lack the real axis `"mtr"`
yields a validation error naming `"mtr"`; and the example table passes. -/
theorem lookup_validation_spec_witness :
    (∃ missing,
      lookup_validate ["mtr", "pseudo"] exampleTable ["pseudo", "real"] =
          Except.error (LookupError.missingPositioners missing) ∧
        "mtr" ∈ missing) ∧
    lookup_validate ["real", "pseudo"] exampleTable ["pseudo", "real"] =
      Except.ok () :=
  ⟨(lookup_validation_spec ["mtr", "pseudo"] exampleTable
      ["pseudo", "real"]).2 "mtr" (by decide) (by decide),
    (lookup_validation_spec ["real", "pseudo"] exampleTable
      ["pseudo", "real"]).1.mpr (by decide)⟩

/-! ## LookupTablePositioner limits setting -/

/-- The kind of exception a Python attribute assignment can raise:
`attributeError` (e.g. a read-only `limits` property) or anything else. -/
inductive PyExc where
  | attributeError
  | otherError
deriving DecidableEq

/-- An axis component object as seen by the limits-setting loop at the end
of `LookupTablePositioner.__init__`: whether it is a `PseudoSingle`
(`isinstance` check), whether it has a `limits` attribute (`hasattr`),
what `obj.limits = ...` does when executed (`none`: succeeds; `some e`:
raises `e`), and its currently stored limits. -/
structure AxisObj where
  isPseudo : Bool
  hasLimits : Bool
  setFailure : Option PyExc
  limits : Option (ℚ × ℚ)
deriving DecidableEq

/-- `np.min` of a 1-D array. -/
def np_min (l : List ℚ) : ℚ :=
  match l with
  | [] => 0
  | x :: xs => xs.foldl min x

/-- `np.max` of a 1-D array. -/
def np_max (l : List ℚ) : ℚ :=
  match l with
  | [] => 0
  | x :: xs => xs.foldl max x

/-- One iteration of the loop over `self._table_data_by_name.items()`:
`limits = (np.min(data), np.max(data))`; a `PseudoSingle` gets
`obj._limits = limits` directly; otherwise, if the object has a `limits`
attribute, `obj.limits = limits` is attempted with `except AttributeError`
logging at debug level and swallowing — any other exception propagates. -/
def set_axis_limits (obj : AxisObj) (data : List ℚ) : Except PyExc AxisObj :=
  let lims := (np_min data, np_max data)
  if obj.isPseudo then Except.ok { obj with limits := some lims }
  else if obj.hasLimits then
    match obj.setFailure with
    | none => Except.ok { obj with limits := some lims }
    | some PyExc.attributeError => Except.ok obj
    | some e => Except.error e
  else Except.ok obj

/-- The whole limits-setting loop: each configured axis paired with its
table column, processed in order; an uncaught exception aborts
construction. -/
def apply_table_limits :
    List (AxisObj × List ℚ) → Except PyExc (List AxisObj)
  | [] => Except.ok []
  | (obj, data) :: rest => do
      let obj2 ← set_axis_limits obj data
      let rest2 ← apply_table_limits rest
      Except.ok (obj2 :: rest2)

/-- Refinement target, following the spec's words for C7: after
construction each axis's limits are `(min, max)` of its column whenever the
axis is a pseudo axis or a real axis whose limits-setting capability is
present and succeeds; otherwise the axis is left untouched. -/
def limits_step_spec (p : AxisObj × List ℚ) : AxisObj :=
  if p.1.isPseudo ∨ (p.1.hasLimits ∧ p.1.setFailure = none) then
    { p.1 with limits := some (np_min p.2, np_max p.2) }
  else p.1

/-- C7 counterexample: a real axis whose `limits` setter raises an
exception other than `AttributeError` makes construction fail — the loop
only catches `AttributeError`, so "any failure … is swallowed" is false. -/
theorem lookup_limits_counterexample :
    apply_table_limits
        [(⟨false, true, some PyExc.otherError, none⟩, [0, 1])] =
      Except.error PyExc.otherError := by
  rfl

/-- C7 amended: pseudo axes always get their internal limits set to
`(min, max)` of the column; a real axis with a limits-setting capability
gets its limits set when the assignment succeeds, and an `AttributeError`
raised by the assignment is swallowed (logged at debug level), leaving the
axis unchanged; provided no assignment raises a non-`AttributeError`
exception, construction completes with exactly these limits. -/
theorem lookup_limits_spec (axes : List (AxisObj × List ℚ))
    (h : ∀ p ∈ axes, p.1.setFailure ≠ some PyExc.otherError) :
    apply_table_limits axes = Except.ok (axes.map limits_step_spec) := by
  induction axes with
  | nil => rfl
  | cons p rest ih =>
      have hp : p.1.setFailure ≠ some PyExc.otherError :=
        h p (List.mem_cons_self p rest)
      have hrest : apply_table_limits rest =
          Except.ok (rest.map limits_step_spec) :=
        ih (fun q hq => h q (List.mem_cons_of_mem p hq))
      obtain ⟨obj, data⟩ := p
      simp only [apply_table_limits, set_axis_limits, List.map_cons,
        limits_step_spec, bind, Except.bind]
      by_cases hps : obj.isPseudo
      · simp [hps, hrest]
      · by_cases hhl : obj.hasLimits
        · cases hsf : obj.setFailure with
          | none => simp [hps, hhl, hsf, hrest]
          | some e =>
              cases e with
              | attributeError => simp [hps, hhl, hsf, hrest]
              | otherError => exact absurd hsf hp
        · simp [hps, hhl, hrest]

/-- Witness for the amended C7: one pseudo axis, one settable real axis,
and one real axis whose setter raises `AttributeError` (swallowed,
unchanged); construction succeeds. -/
theorem lookup_limits_spec_witness :
    apply_table_limits
        [(⟨true, false, none, none⟩, [3, 1, 2]),
         (⟨false, true, none, none⟩, [0, 4]),
         (⟨false, true, some PyExc.attributeError, none⟩, [5, 6])] =
      Except.ok
        ([(⟨true, false, none, none⟩, ([3, 1, 2] : List ℚ)),
          (⟨false, true, none, none⟩, [0, 4]),
          (⟨false, true, some PyExc.attributeError, none⟩,
            [5, 6])].map limits_step_spec) :=
  lookup_limits_spec _ (by simp)

/-! ## PseudoPositioner notepad telemetry push -/

/-- A notepad telemetry signal as seen by `_update_notepad_ioc`:
`connected` and `write_access` flags, the value `signal.get(use_monitor=
True)` would return (`monitor_value`), and whether the `get` or `put` call
raises when executed. -/
structure NotepadSignal where
  connected : Bool
  write_access : Bool
  monitor_value : ℚ
  get_fails : Bool
  put_fails : Bool
deriving DecidableEq

/-- The body of one iteration of the `_update_notepad_ioc` loop over
`zip(self._pseudo, position)`: `getattr(positioner, attr, None)` gives
`sig`; `None` means skip; otherwise, when the signal is connected and
writable and `signal.get(use_monitor=True)` differs from the new value, a
fire-and-forget `put` is issued.  `Except.ok (some w)` means a write of `w`
was issued; `Except.error` models an exception raised inside the body. -/
def notepad_step (sig : Option NotepadSignal) (value : ℚ) :
    Except String (Option ℚ) :=
  match sig with
  | none => Except.ok none
  | some s =>
      if s.connected && s.write_access then
        if s.get_fails then Except.error "signal.get raised"
        else if s.monitor_value ≠ value then
          if s.put_fails then Except.error "signal.put raised"
          else Except.ok (some value)
        else Except.ok none
      else Except.ok none

/-- `PseudoPositioner._update_notepad_ioc`: run the body for every pseudo
axis; any exception raised by a body is caught and logged at debug level
(`self.log.debug(...)`), and iteration continues.  Returns the list of
writes actually issued. -/
def update_notepad_ioc : List (Option NotepadSignal × ℚ) → List ℚ
  | [] => []
  | (sig, v) :: rest =>
      match notepad_step sig v with
      | Except.ok (some w) => w :: update_notepad_ioc rest
      | Except.ok none => update_notepad_ioc rest
      | Except.error _ => update_notepad_ioc rest

/-- `PseudoPositioner.move`: delegate to the external coordinated move
(whose completion handle `status` is produced by the ophyd base class),
then push the commanded position to the notepad signals, then return
`status` unchanged. -/
def pp_move (status : ℕ) (axes : List (Option NotepadSignal × ℚ)) :
    ℕ × List ℚ :=
  (status, update_notepad_ioc axes)

/-- C9: (1) `move` always returns the completion handle of the underlying
move, whatever the telemetry signals do; (2) a write is issued only for an
attached signal that is connected, writable, and whose last value differs
from the new value; (3) an exception raised inside one iteration's body is
swallowed and the remaining axes are still processed. -/
theorem notepad_push_spec (status : ℕ)
    (axes : List (Option NotepadSignal × ℚ)) :
    (pp_move status axes).1 = status ∧
    (∀ w ∈ update_notepad_ioc axes, ∃ s,
      (some s, w) ∈ axes ∧ s.connected = true ∧ s.write_access = true ∧
        s.monitor_value ≠ w) ∧
    (∀ sig v rest e, notepad_step sig v = Except.error e →
      update_notepad_ioc ((sig, v) :: rest) = update_notepad_ioc rest) := by
  refine ⟨rfl, ?_, ?_⟩
  · induction axes with
    | nil => intro w hw; exact absurd hw (List.not_mem_nil w)
    | cons p rest ih =>
        obtain ⟨sig, v⟩ := p
        intro w hw
        cases sig with
        | none =>
            have hstep : notepad_step none v = Except.ok none := rfl
            rw [update_notepad_ioc, hstep] at hw
            obtain ⟨s, hs, h₁, h₂, h₃⟩ := ih w hw
            exact ⟨s, List.mem_cons_of_mem _ hs, h₁, h₂, h₃⟩
        | some s =>
            by_cases hcw : s.connected && s.write_access
            · by_cases hg : s.get_fails
              · have hstep : notepad_step (some s) v =
                    Except.error "signal.get raised" := by
                  simp [notepad_step, hcw, hg]
                rw [update_notepad_ioc, hstep] at hw
                obtain ⟨t, ht, h₁, h₂, h₃⟩ := ih w hw
                exact ⟨t, List.mem_cons_of_mem _ ht, h₁, h₂, h₃⟩
              · by_cases hmv : s.monitor_value ≠ v
                · by_cases hpf : s.put_fails
                  · have hstep : notepad_step (some s) v =
                        Except.error "signal.put raised" := by
                      simp [notepad_step, hcw, hg, hmv, hpf]
                    rw [update_notepad_ioc, hstep] at hw
                    obtain ⟨t, ht, h₁, h₂, h₃⟩ := ih w hw
                    exact ⟨t, List.mem_cons_of_mem _ ht, h₁, h₂, h₃⟩
                  · have hstep : notepad_step (some s) v =
                        Except.ok (some v) := by
                      simp [notepad_step, hcw, hg, hmv, hpf]
                    rw [update_notepad_ioc, hstep] at hw
                    rcases List.mem_cons.mp hw with rfl | hw
                    · refine ⟨s, List.mem_cons_self _ _, ?_, ?_, hmv⟩
                      · exact (Bool.and_eq_true_iff.mp hcw).1
                      · exact (Bool.and_eq_true_iff.mp hcw).2
                    · obtain ⟨t, ht, h₁, h₂, h₃⟩ := ih w hw
                      exact ⟨t, List.mem_cons_of_mem _ ht, h₁, h₂, h₃⟩
                · have hstep : notepad_step (some s) v = Except.ok none := by
                    simp only [notepad_step, hcw, if_true, if_neg hmv]
                    simp [hg]
                  rw [update_notepad_ioc, hstep] at hw
                  obtain ⟨t, ht, h₁, h₂, h₃⟩ := ih w hw
                  exact ⟨t, List.mem_cons_of_mem _ ht, h₁, h₂, h₃⟩
            · have hstep : notepad_step (some s) v = Except.ok none := by
                simp [notepad_step, hcw]
              rw [update_notepad_ioc, hstep] at hw
              obtain ⟨t, ht, h₁, h₂, h₃⟩ := ih w hw
              exact ⟨t, List.mem_cons_of_mem _ ht, h₁, h₂, h₃⟩
  · intro sig v rest e he
    simp only [update_notepad_ioc, he]

/-- Witness for C9 at a concrete input: a connected, writable signal with a
stale value receives the write, and an iteration whose `get` raises is
swallowed. -/
theorem notepad_push_spec_witness :
    (∃ s, (some s, (5 : ℚ)) ∈
        [(some (⟨true, true, 0, false, false⟩ : NotepadSignal), (5 : ℚ))] ∧
      s.connected = true ∧ s.write_access = true ∧ s.monitor_value ≠ 5) ∧
    update_notepad_ioc
        [(some (⟨true, true, 0, true, false⟩ : NotepadSignal), (7 : ℚ))] =
      update_notepad_ioc [] :=
  ⟨(notepad_push_spec 0
      [(some (⟨true, true, 0, false, false⟩ : NotepadSignal), 5)]).2.1 5
      (by norm_num [update_notepad_ioc, notepad_step]),
    (notepad_push_spec 0 []).2.2
      (some (⟨true, true, 0, true, false⟩ : NotepadSignal)) 7 []
      "signal.get raised" (by norm_num [notepad_step])⟩

end Pcds
